import Mathlib

/-!
Verification development for the quake-grade repository.

The development shallowly embeds the data-handling core of the repository:

* `generate_random_dataset` (`src/ui/components/data_loader.py`; the function
  `gerar_dataset_randomico` in `app.py` is line-for-line the same algorithm and
  is covered by the same embedding),
* the validators `clean_dataset`, `validate_columns`, `validate_data_types`,
  `validate_data_ranges`, `validate_file_size` (`src/ui/utils/validators.py`),
* the upload pipeline `handle_file_upload` (`src/ui/components/data_loader.py`),
* the `LLMService` availability logic (`src/services/llm_service.py`).

Modelling conventions:

* A pandas DataFrame is a list of named columns.  A column is either numeric
  (`Col.num`), carrying the dtype's integer flag exactly as consulted by
  `pd.api.types.is_integer_dtype`, or categorical/object (`Col.cat`) holding
  strings.  Column labels are assumed unique (`pd.read_csv` mangles duplicate
  headers), so `df[c]` is first-match lookup.
* Reference numeric cells are exact rationals.  Computed floats that can be
  NaN (mean, std, min, max of a series; samples) live in `PFloat`, which is
  either NaN or an exact rational.  Exact rational arithmetic is used where
  the code uses IEEE doubles; every property proved here is about order,
  clipping, rounding and NaN-propagation, which agree.
* `np.random.normal(loc, scale)` returns `loc + scale·g` with `g` a standard
  normal draw.  When `loc` or `scale` is NaN the result is NaN; when
  `scale = 0` it is exactly `loc`; when `scale > 0` the result ranges over all
  reals, which the embedding models by letting a noise oracle supply the drawn
  value directly.  `scale` is `Series.std()` (ddof = 1), i.e. the square root
  of the sample variance; only its NaN-ness (fewer than two rows) and zero-ness
  (zero variance) influence the result, and square root preserves both, so the
  embedding carries the exact sample variance instead of its square root.
* `np.random.choice(categories, p=...)` draws one of the listed categories;
  which one is random, modelled by a pick oracle reduced modulo the number of
  categories.  With an empty category list `np.random.choice` raises a
  `ValueError` (its probability vector cannot sum to 1), modelled by `none`.
-/

/-- A double that is either NaN or an exact value. -/
inductive PFloat where
  | nan : PFloat
  | val : ℚ → PFloat
deriving DecidableEq, Repr

/-- `np.maximum` on scalars: NaN propagates, otherwise the larger value. -/
def pmax : PFloat → PFloat → PFloat
  | .nan, _ => .nan
  | _, .nan => .nan
  | .val a, .val b => .val (max a b)

/-- `np.minimum` on scalars: NaN propagates, otherwise the smaller value. -/
def pmin : PFloat → PFloat → PFloat
  | .nan, _ => .nan
  | _, .nan => .nan
  | .val a, .val b => .val (min a b)

/-- `np.clip(v, lo, hi)`, which numpy computes as `minimum(maximum(v, lo), hi)`;
NaN anywhere propagates to the output. -/
def clip (v lo hi : PFloat) : PFloat := pmin (pmax v lo) hi

/-- The minimum of a list of rationals, `none` when the list is empty
(`Series.min()` of an empty series is NaN). -/
def qListMin : List ℚ → Option ℚ
  | [] => none
  | x :: r =>
    match qListMin r with
    | none => some x
    | some m => some (min x m)

/-- The maximum of a list of rationals, `none` when the list is empty. -/
def qListMax : List ℚ → Option ℚ
  | [] => none
  | x :: r =>
    match qListMax r with
    | none => some x
    | some m => some (max x m)

/-- `Series.mean()`: NaN on an empty column, else the exact average. -/
def colMean (xs : List ℚ) : PFloat :=
  if xs.length = 0 then .nan else .val (xs.sum / xs.length)

/-- The sample variance with ddof = 1, the square of `Series.std()`:
NaN when the column has fewer than two values, else `Σ (x − mean)² / (n − 1)`.
The code passes `std = sqrt` of this to `np.random.normal`; only NaN-ness and
zero-ness of the scale matter to the embedded sampler, and the square root
preserves both, so the variance itself is carried. -/
def colVar (xs : List ℚ) : PFloat :=
  if xs.length ≤ 1 then .nan
  else .val ((xs.map (fun x => (x - xs.sum / xs.length) ^ 2)).sum / ((xs.length : ℚ) - 1))

/-- `Series.min()` as a `PFloat`. -/
def colMin (xs : List ℚ) : PFloat :=
  match qListMin xs with
  | none => .nan
  | some m => .val m

/-- `Series.max()` as a `PFloat`. -/
def colMax (xs : List ℚ) : PFloat :=
  match qListMax xs with
  | none => .nan
  | some m => .val m

/-- One draw of `np.random.normal(loc=mean, scale=std)` where `var = std²`:
NaN `loc` or `scale` yields NaN; `scale = 0` yields exactly `loc` (the draw is
`loc + scale·g`); a positive `scale` yields `loc + scale·g`, which ranges over
all reals as `g` does, modelled by the oracle value `z`. -/
def sampleNormal (mean var : PFloat) (z : ℚ) : PFloat :=
  match mean, var with
  | .nan, _ => .nan
  | _, .nan => .nan
  | .val m, .val v => if v = 0 then .val m else .val z

/-- `np.round` on a rational: round half to even (banker's rounding). -/
def roundHalfEven (q : ℚ) : ℤ :=
  if q - ⌊q⌋ < 1 / 2 then ⌊q⌋
  else if 1 / 2 < q - ⌊q⌋ then ⌊q⌋ + 1
  else if ⌊q⌋ % 2 = 0 then ⌊q⌋ else ⌊q⌋ + 1

/-- `np.round(values).astype(int)` on one cell.  `np.round` keeps NaN, and the
subsequent cast of NaN to a machine integer is undefined behaviour in numpy
(an arbitrary platform integer plus a runtime warning); the embedding keeps
the NaN marker to record that no well-defined integer is produced. -/
def intRound : PFloat → PFloat
  | .nan => .nan
  | .val q => .val (roundHalfEven q)

/-- A DataFrame column: numeric dtype (with `is_integer_dtype` flag) or a
categorical/object column of strings. -/
inductive Col where
  | num (intDtype : Bool) (vals : List ℚ)
  | cat (vals : List String)
deriving DecidableEq, Repr

/-- A DataFrame: ordered, named columns. -/
structure Table where
  cols : List (String × Col)
deriving DecidableEq, Repr

/-- The number of values in a column. -/
def colLen : Col → ℕ
  | .num _ xs => xs.length
  | .cat xs => xs.length

/-- `len(df)`: the row count.  In a well-formed frame all columns have the same
length; the embedding reads the first column's (0 for a column-less frame,
whose pandas index length is not representable in a column-list model). -/
def Table.nRows (t : Table) : ℕ :=
  match t.cols with
  | [] => 0
  | c :: _ => colLen c.2

/-- A generated column: numeric cells may be NaN. -/
inductive OutCol where
  | num (vals : List PFloat)
  | cat (vals : List String)
deriving DecidableEq, Repr

/-- The generated DataFrame. -/
structure OutTable where
  cols : List (String × OutCol)
deriving DecidableEq, Repr

/-- The number of values in a generated column. -/
def outColLen : OutCol → ℕ
  | .num xs => xs.length
  | .cat xs => xs.length

/-- One cell of the numeric branch: a normal sample with the column's mean and
std, clipped into `[min, max]`, then rounded-and-cast when the reference dtype
was integer. -/
def genCell (intDtype : Bool) (xs : List ℚ) (z : ℚ) : PFloat :=
  if intDtype then
    intRound (clip (sampleNormal (colMean xs) (colVar xs) z) (colMin xs) (colMax xs))
  else clip (sampleNormal (colMean xs) (colVar xs) z) (colMin xs) (colMax xs)

/-- The numeric branch of the generator loop: draw `n` normal samples with the
column's mean and std, clip each into `[min, max]`, and round-and-cast when the
reference dtype was integer. -/
def genNumCol (intDtype : Bool) (xs : List ℚ) (n : ℕ) (z : ℕ → ℚ) : List PFloat :=
  (List.range n).map (fun i => genCell intDtype xs (z i))

/-- The categorical branch: `value_counts(normalize=True)` indexes the distinct
observed labels (embedded as `dedup`; its frequency ordering is irrelevant, the
draws being random), and `np.random.choice` draws among them, modelled by the
pick oracle modulo the category count.  An empty label list makes
`np.random.choice` raise a `ValueError`, embedded as `none`. -/
def genCatCol (xs : List String) (n : ℕ) (pick : ℕ → ℕ) : Option (List String) :=
  if xs.dedup = [] then none
  else
    some ((List.range n).map (fun i => (xs.dedup).getD (pick i % xs.dedup.length) ""))

/-- One iteration of the generator's column loop. -/
def genCol : Col → ℕ → (ℕ → ℚ) → (ℕ → ℕ) → Option OutCol
  | .num intDtype xs, n, z, _ => some (.num (genNumCol intDtype xs n z))
  | .cat xs, n, _, pick => (genCatCol xs n pick).map .cat

/-- The generator's loop over `base_df.columns`, threading the column index to
the oracles. -/
def genCols : ℕ → List (String × Col) → ℕ → (ℕ → ℕ → ℚ) → (ℕ → ℕ → ℕ) →
    Option (List (String × OutCol))
  | _, [], _, _, _ => some []
  | ci, (name, c) :: rest, n, z, pick =>
    match genCol c n (z ci) (pick ci), genCols (ci + 1) rest n z pick with
    | some oc, some rest' => some ((name, oc) :: rest')
    | _, _ => none

/-- `generate_random_dataset(base_df, n_samples)` from
`src/ui/components/data_loader.py` (identically `gerar_dataset_randomico` in
`app.py`): default the row count to `len(base_df)`, then fill one column per
reference column.  `none` models the only raising path, `np.random.choice` on
an empty category list. -/
def generate_random_dataset (base : Table) (nSamples : Option ℕ)
    (z : ℕ → ℕ → ℚ) (pick : ℕ → ℕ → ℕ) : Option OutTable :=
  let n := nSamples.getD base.nRows
  match genCols 0 base.cols n z pick with
  | none => none
  | some cs => some ⟨cs⟩

/-- Membership of a generated cell in a closed rational interval; NaN lies in
no interval (`NaN ≤ x` and `x ≤ NaN` are both false for doubles). -/
def memRange (lo hi : ℚ) : PFloat → Prop
  | .nan => False
  | .val q => lo ≤ q ∧ q ≤ hi

/-- `EXPECTED_COLUMNS` from `src/ui/utils/constants.py` (identically
`colunas_esperadas` in `app.py`). -/
def EXPECTED_COLUMNS : List String := ["Magnitud", "Latitud", "Longitud", "Profundidad"]

/-- The column labels of a frame, `df.columns`. -/
def Table.names (t : Table) : List String := t.cols.map Prod.fst

/-- `df[c]` under the unique-labels assumption: the first column labelled `c`. -/
def Table.colNamed (t : Table) (c : String) : Option Col := List.lookup c t.cols

/-- `clean_dataset` from `src/ui/utils/validators.py`: drop the `Gravedad`
column when present (`df.drop(columns=["Gravedad"])` removes every column with
that label and keeps the others, in order, untouched), otherwise return the
frame as is. -/
def clean_dataset (t : Table) : Table :=
  if t.names.contains "Gravedad" then ⟨t.cols.filter (fun c => c.1 != "Gravedad")⟩ else t

/-- `validate_columns` from `src/ui/utils/validators.py`: list the expected
columns missing from the frame; valid when there are none. -/
def validate_columns (t : Table) : Bool × List String :=
  ((EXPECTED_COLUMNS.filter (fun c => !(t.names.contains c))).isEmpty,
    EXPECTED_COLUMNS.filter (fun c => !(t.names.contains c)))

/-- Whether a column has numeric dtype, `pd.api.types.is_numeric_dtype`. -/
def isNumericCol : Col → Bool
  | .num _ _ => true
  | .cat _ => false

/-- `validate_data_types` from `src/ui/utils/validators.py`: for each expected
column that is present, an error message when its dtype is not numeric; valid
when no messages accumulate. -/
def validate_data_types (t : Table) : Bool × List String :=
  ((EXPECTED_COLUMNS.filterMap (fun c =>
      match t.colNamed c with
      | none => none
      | some col =>
        if isNumericCol col then none
        else some ("Coluna " ++ c ++ " deve conter valores numericos"))).isEmpty,
    EXPECTED_COLUMNS.filterMap (fun c =>
      match t.colNamed c with
      | none => none
      | some col =>
        if isNumericCol col then none
        else some ("Coluna " ++ c ++ " deve conter valores numericos")))

/-- `Series.min() < q` on a float column: false when the minimum is NaN. -/
def pfLtQ (a : PFloat) (q : ℚ) : Bool :=
  match a with
  | .nan => false
  | .val x => decide (x < q)

/-- `q < Series.max()` read as `Series.max() > q`: false when the maximum is
NaN. -/
def pfGtQ (a : PFloat) (q : ℚ) : Bool :=
  match a with
  | .nan => false
  | .val x => decide (q < x)

/-- One `if "X" in df.columns: if <bad>: errors.append(msg)` block of
`validate_data_ranges`.  On a non-numeric column the comparison of its
min/max against a number raises a `TypeError` (modelled `none`); the upload
pipeline only reaches range validation after the dtype check, so that branch
is unreachable there, but the embedding keeps it faithful. -/
def rangeCheck (t : Table) (c : String) (bad : List ℚ → Bool) (msg : String) :
    Option (List String) :=
  match t.colNamed c with
  | none => some []
  | some (Col.num _ xs) => some (if bad xs then [msg] else [])
  | some (Col.cat _) => none

/-- `df["Magnitud"].min() < 0 or df["Magnitud"].max() > 10`. -/
def magnitudBad (xs : List ℚ) : Bool := pfLtQ (colMin xs) 0 || pfGtQ (colMax xs) 10

/-- `df["Latitud"].min() < -90 or df["Latitud"].max() > 90`. -/
def latitudBad (xs : List ℚ) : Bool := pfLtQ (colMin xs) (-90) || pfGtQ (colMax xs) 90

/-- `df["Longitud"].min() < -180 or df["Longitud"].max() > 180`. -/
def longitudBad (xs : List ℚ) : Bool := pfLtQ (colMin xs) (-180) || pfGtQ (colMax xs) 180

/-- `df["Profundidad"].min() < 0`. -/
def profundidadBad (xs : List ℚ) : Bool := pfLtQ (colMin xs) 0

/-- `validate_data_ranges` from `src/ui/utils/validators.py`: Magnitud within
0–10, Latitud within −90–90, Longitud within −180–180, Profundidad
non-negative; each violation appends one message, and the result is valid when
no messages accumulate. -/
def validate_data_ranges (t : Table) : Option (Bool × List String) := do
  let e1 ← rangeCheck t "Magnitud" magnitudBad "Magnitude deve estar entre 0 e 10"
  let e2 ← rangeCheck t "Latitud" latitudBad "Latitude deve estar entre -90 e 90"
  let e3 ← rangeCheck t "Longitud" longitudBad "Longitude deve estar entre -180 e 180"
  let e4 ← rangeCheck t "Profundidad" profundidadBad "Profundidade nao pode ser negativa"
  let errs := e1 ++ e2 ++ e3 ++ e4
  pure (errs.isEmpty, errs)

/-- `handle_file_upload` from `src/ui/components/data_loader.py`, from the
point where the uploaded CSV has been parsed into a frame (the uploader
returning no file, and `pd.read_csv` failures, are I/O outside the embedding):
clean the frame, reject (`None`) on missing expected columns, reject on
non-numeric expected columns, emit range violations as warnings only, and
return the cleaned frame.  An exception escaping any step is caught by the
surrounding `except` and also yields `None`. -/
def handle_file_upload (raw : Table) : Option Table :=
  let df := clean_dataset raw
  if (validate_columns df).1 = false then none
  else if (validate_data_types df).1 = false then none
  else
    match validate_data_ranges df with
    | none => none
    | some _ => some df

/-- `validate_file_size` from `src/ui/utils/validators.py` (the Python default
for `max_size_mb` is 100): reject with a message when the byte size exceeds
`max_size_mb` mebibytes, accept with an empty message otherwise. -/
def validate_file_size (file_size : ℕ) (max_size_mb : ℕ) : Bool × String :=
  if file_size > max_size_mb * 1024 * 1024 then
    (false, "Arquivo muito grande. Tamanho maximo permitido: " ++ toString max_size_mb ++ "MB")
  else (true, "")

/-- The state of `LLMService` (`src/services/llm_service.py`): the OpenAI
client handle when one was constructed (carrying the key it was built with),
and the last error message. -/
structure LLMService where
  client : Option String
  errorMessage : Option String
deriving DecidableEq, Repr

/-- `LLMService.__init__`: without an API key no client is initialised; with
one, `_initialize_client` either succeeds or records an error message (the
`ctorFails` oracle models the `try` around the OpenAI constructor). -/
def llmServiceInit (apiKey : Option String) (ctorFails : Bool) : LLMService :=
  match apiKey with
  | none => ⟨none, none⟩
  | some k =>
    if ctorFails then ⟨none, some "Erro ao inicializar servico de IA"⟩ else ⟨some k, none⟩

/-- `LLMService.is_available`: whether a client handle exists. -/
def LLMService.is_available (s : LLMService) : Bool := s.client.isSome

/-- `LLMService.generate_prediction_insights`: `None` when unavailable;
otherwise the prompt built from the frame is sent to the chat-completion API,
whose free-text-or-failure response is the `api` oracle (prompt assembly is
pure data formatting and cannot change the `None`-ness of the result). -/
def generate_prediction_insights (s : LLMService) (df : Table) (api : Option String) :
    Option String :=
  if s.is_available = false then none else api

/-- `LLMService.generate_risk_assessment`: `None` when unavailable; otherwise
the remote call's response, modelled by the `api` oracle. -/
def generate_risk_assessment (s : LLMService) (df : Table) (api : Option String) :
    Option String :=
  if s.is_available = false then none else api

/-- `LLMService.analyze_data_quality`: `None` when unavailable; otherwise the
remote call's response, modelled by the `api` oracle. -/
def analyze_data_quality (s : LLMService) (df : Table) (api : Option String) :
    Option String :=
  if s.is_available = false then none else api

theorem qListMin_eq_none {xs : List ℚ} : qListMin xs = none ↔ xs = [] := by
  cases xs with
  | nil => simp [qListMin]
  | cons a r =>
    simp only [qListMin]
    cases qListMin r <;> simp

theorem qListMax_eq_none {xs : List ℚ} : qListMax xs = none ↔ xs = [] := by
  cases xs with
  | nil => simp [qListMax]
  | cons a r =>
    simp only [qListMax]
    cases qListMax r <;> simp

theorem qListMin_le {xs : List ℚ} {m : ℚ} (h : qListMin xs = some m) :
    ∀ x ∈ xs, m ≤ x := by
  induction xs generalizing m with
  | nil => simp [qListMin] at h
  | cons a r ih =>
    intro x hx
    rcases List.mem_cons.mp hx with hx | hx
    · subst hx
      simp only [qListMin] at h
      cases hr : qListMin r with
      | none => rw [hr] at h; simp at h; simp [h]
      | some m' => rw [hr] at h; simp at h; simp [← h, min_le_left]
    · simp only [qListMin] at h
      cases hr : qListMin r with
      | none =>
        rcases qListMin_eq_none.mp hr with rfl
        simp at hx
      | some m' =>
        rw [hr] at h; simp at h
        exact le_trans (h ▸ min_le_right a m') (ih hr x hx)

theorem qListMax_ge {xs : List ℚ} {m : ℚ} (h : qListMax xs = some m) :
    ∀ x ∈ xs, x ≤ m := by
  induction xs generalizing m with
  | nil => simp [qListMax] at h
  | cons a r ih =>
    intro x hx
    rcases List.mem_cons.mp hx with hx | hx
    · subst hx
      simp only [qListMax] at h
      cases hr : qListMax r with
      | none => rw [hr] at h; simp at h; simp [h]
      | some m' => rw [hr] at h; simp at h; simp [← h, le_max_left]
    · simp only [qListMax] at h
      cases hr : qListMax r with
      | none =>
        rcases qListMax_eq_none.mp hr with rfl
        simp at hx
      | some m' =>
        rw [hr] at h; simp at h
        exact le_trans (ih hr x hx) (h ▸ le_max_right a m')

theorem qListMin_mem {xs : List ℚ} {m : ℚ} (h : qListMin xs = some m) : m ∈ xs := by
  induction xs generalizing m with
  | nil => simp [qListMin] at h
  | cons a r ih =>
    simp only [qListMin] at h
    cases hr : qListMin r with
    | none => rw [hr] at h; simp at h; simp [h]
    | some m' =>
      rw [hr] at h
      simp only [Option.some.injEq] at h
      subst h
      rcases min_cases a m' with ⟨he, _⟩ | ⟨he, _⟩
      · rw [he]; exact List.mem_cons_self a r
      · rw [he]; exact List.mem_cons.mpr (Or.inr (ih hr))

theorem qListMax_mem {xs : List ℚ} {m : ℚ} (h : qListMax xs = some m) : m ∈ xs := by
  induction xs generalizing m with
  | nil => simp [qListMax] at h
  | cons a r ih =>
    simp only [qListMax] at h
    cases hr : qListMax r with
    | none => rw [hr] at h; simp at h; simp [h]
    | some m' =>
      rw [hr] at h
      simp only [Option.some.injEq] at h
      subst h
      rcases max_cases a m' with ⟨he, _⟩ | ⟨he, _⟩
      · rw [he]; exact List.mem_cons_self a r
      · rw [he]; exact List.mem_cons.mpr (Or.inr (ih hr))

theorem qListMin_exists {xs : List ℚ} (h : xs ≠ []) : ∃ m, qListMin xs = some m := by
  cases he : qListMin xs with
  | none => exact absurd (qListMin_eq_none.mp he) h
  | some m => exact ⟨m, rfl⟩

theorem qListMax_exists {xs : List ℚ} (h : xs ≠ []) : ∃ m, qListMax xs = some m := by
  cases he : qListMax xs with
  | none => exact absurd (qListMax_eq_none.mp he) h
  | some m => exact ⟨m, rfl⟩

theorem qListMin_le_qListMax {xs : List ℚ} {lo hi : ℚ}
    (hlo : qListMin xs = some lo) (hhi : qListMax xs = some hi) : lo ≤ hi :=
  qListMax_ge hhi lo (qListMin_mem hlo)

theorem roundHalfEven_cases (q : ℚ) :
    roundHalfEven q = ⌊q⌋ ∨ (roundHalfEven q = ⌊q⌋ + 1 ∧ ¬(q - ⌊q⌋ < 1 / 2)) := by
  unfold roundHalfEven
  by_cases h1 : q - ⌊q⌋ < 1 / 2
  · rw [if_pos h1]; exact Or.inl rfl
  · rw [if_neg h1]
    by_cases h2 : 1 / 2 < q - ⌊q⌋
    · rw [if_pos h2]; exact Or.inr ⟨rfl, h1⟩
    · rw [if_neg h2]
      by_cases h3 : ⌊q⌋ % 2 = 0
      · rw [if_pos h3]; exact Or.inl rfl
      · rw [if_neg h3]; exact Or.inr ⟨rfl, h1⟩

theorem roundHalfEven_bounds {a b : ℤ} {q : ℚ} (ha : (a : ℚ) ≤ q) (hb : q ≤ (b : ℚ)) :
    a ≤ roundHalfEven q ∧ roundHalfEven q ≤ b := by
  have hfl : a ≤ ⌊q⌋ := Int.le_floor.mpr ha
  have hfu : ⌊q⌋ ≤ b := le_trans (Int.floor_le_floor hb) (le_of_eq (Int.floor_intCast b))
  rcases roundHalfEven_cases q with he | ⟨he, hge⟩
  · omega
  · have h2 : (1 : ℚ) / 2 ≤ q - ⌊q⌋ := le_of_not_lt hge
    have hq : (⌊q⌋ : ℚ) < (b : ℚ) := by linarith [Int.floor_le q]
    have : ⌊q⌋ < b := by exact_mod_cast hq
    omega

theorem den_one_int {q : ℚ} (h : q.den = 1) : ∃ a : ℤ, q = (a : ℚ) :=
  ⟨q.num, by rw [← Rat.num_div_den q, h]; simp⟩

theorem genCell_spec {xs : List ℚ} {lo hi : ℚ} (b : Bool) (z : ℚ)
    (h2 : 2 ≤ xs.length) (hlo : qListMin xs = some lo) (hhi : qListMax xs = some hi)
    (hden : b = true → ∀ x ∈ xs, x.den = 1) :
    memRange lo hi (genCell b xs z) ∧
      (b = true → ∃ k : ℤ, genCell b xs z = PFloat.val (k : ℚ)) := by
  obtain ⟨m, hm⟩ : ∃ m, colMean xs = PFloat.val m :=
    ⟨_, by rw [colMean, if_neg (by omega)]⟩
  obtain ⟨V, hV⟩ : ∃ V, colVar xs = PFloat.val V :=
    ⟨_, by rw [colVar, if_neg (by omega)]⟩
  have hlo' : colMin xs = PFloat.val lo := by rw [colMin, hlo]
  have hhi' : colMax xs = PFloat.val hi := by rw [colMax, hhi]
  have hsample : sampleNormal (colMean xs) (colVar xs) z
      = PFloat.val (if V = 0 then m else z) := by
    rw [hm, hV]
    by_cases h0 : V = 0 <;> simp [sampleNormal, h0]
  have hclip : clip (sampleNormal (colMean xs) (colVar xs) z) (colMin xs) (colMax xs)
      = PFloat.val (min (max (if V = 0 then m else z) lo) hi) := by
    rw [hsample, hlo', hhi']
    rfl
  have hlohi : lo ≤ hi := qListMin_le_qListMax hlo hhi
  have hcl_lo : lo ≤ min (max (if V = 0 then m else z) lo) hi :=
    le_min (le_max_right _ lo) hlohi
  have hcl_hi : min (max (if V = 0 then m else z) lo) hi ≤ hi := min_le_right _ _
  cases b with
  | false =>
    refine ⟨?_, by intro h; cases h⟩
    rw [genCell, if_neg (by simp), hclip]
    exact ⟨hcl_lo, hcl_hi⟩
  | true =>
    obtain ⟨la, hla⟩ := den_one_int (hden rfl lo (qListMin_mem hlo))
    obtain ⟨lb, hlb⟩ := den_one_int (hden rfl hi (qListMax_mem hhi))
    have hbounds := roundHalfEven_bounds
      (a := la) (b := lb)
      (q := min (max (if V = 0 then m else z) lo) hi)
      (by rw [← hla]; exact hcl_lo) (by rw [← hlb]; exact hcl_hi)
    have hg : genCell true xs z
        = PFloat.val ((roundHalfEven (min (max (if V = 0 then m else z) lo) hi) : ℤ) : ℚ) := by
      rw [genCell, if_pos rfl, hclip]
      rfl
    constructor
    · rw [hg]
      refine ⟨?_, ?_⟩
      · have hc : (la : ℚ)
            ≤ ((roundHalfEven (min (max (if V = 0 then m else z) lo) hi) : ℤ) : ℚ) := by
          exact_mod_cast hbounds.1
        rw [← hla] at hc
        exact hc
      · have hc : ((roundHalfEven (min (max (if V = 0 then m else z) lo) hi) : ℤ) : ℚ)
            ≤ (lb : ℚ) := by
          exact_mod_cast hbounds.2
        rw [← hlb] at hc
        exact hc
    · intro _
      exact ⟨_, hg⟩

theorem genCatCol_spec {xs : List String} {n : ℕ} {pick : ℕ → ℕ} {ovs : List String}
    (h : genCatCol xs n pick = some ovs) :
    ovs.length = n ∧ ∀ v ∈ ovs, v ∈ xs := by
  rw [genCatCol] at h
  by_cases hd : xs.dedup = []
  · rw [if_pos hd] at h; cases h
  · rw [if_neg hd] at h
    simp only [Option.some.injEq] at h
    subst h
    refine ⟨by simp, ?_⟩
    intro v hv
    simp only [List.mem_map, List.mem_range] at hv
    obtain ⟨i, _, rfl⟩ := hv
    have hlt : pick i % xs.dedup.length < xs.dedup.length :=
      Nat.mod_lt _ (List.length_pos.mpr hd)
    have hmem : xs.dedup.getD (pick i % xs.dedup.length) "" ∈ xs.dedup := by
      rw [List.getD_eq_getElem?_getD, List.getElem?_eq_getElem hlt]
      simp
    exact List.mem_dedup.mp hmem

theorem genCol_num_eq {b : Bool} {xs : List ℚ} {n : ℕ} {z : ℕ → ℚ} {p : ℕ → ℕ}
    {oc : OutCol} (h : genCol (Col.num b xs) n z p = some oc) :
    oc = OutCol.num (genNumCol b xs n z) := by
  simp only [genCol, Option.some.injEq] at h
  exact h.symm

theorem genCol_cat_spec {xs : List String} {n : ℕ} {z : ℕ → ℚ} {p : ℕ → ℕ}
    {oc : OutCol} (h : genCol (Col.cat xs) n z p = some oc) :
    ∃ ovs, oc = OutCol.cat ovs ∧ ovs.length = n ∧ ∀ v ∈ ovs, v ∈ xs := by
  simp only [genCol, Option.map_eq_some'] at h
  obtain ⟨ovs, hg, rfl⟩ := h
  obtain ⟨hlen, hmem⟩ := genCatCol_spec hg
  exact ⟨ovs, rfl, hlen, hmem⟩

theorem genCol_len {c : Col} {n : ℕ} {z : ℕ → ℚ} {p : ℕ → ℕ} {oc : OutCol}
    (h : genCol c n z p = some oc) : outColLen oc = n := by
  cases c with
  | num b xs =>
    rw [genCol_num_eq h]
    simp [outColLen, genNumCol]
  | cat xs =>
    obtain ⟨ovs, rfl, hlen, _⟩ := genCol_cat_spec h
    simpa [outColLen] using hlen

theorem genCols_sound {n : ℕ} {z : ℕ → ℕ → ℚ} {pick : ℕ → ℕ → ℕ} :
    ∀ {ci : ℕ} {cols : List (String × Col)} {out : List (String × OutCol)},
      genCols ci cols n z pick = some out →
      List.Forall₂ (fun bc oc => bc.1 = oc.1 ∧ ∃ zc pc, genCol bc.2 n zc pc = some oc.2)
        cols out := by
  intro ci cols
  induction cols generalizing ci with
  | nil =>
    intro out h
    rw [genCols] at h
    cases h
    exact List.Forall₂.nil
  | cons hd tl ih =>
    obtain ⟨name, c⟩ := hd
    intro out h
    rw [genCols] at h
    split at h
    · next oc rest' hoc hrest =>
      cases h
      exact List.Forall₂.cons ⟨rfl, _, _, hoc⟩ (ih hrest)
    · next => cases h

theorem generate_random_dataset_sound {base : Table} {ns : Option ℕ}
    {z : ℕ → ℕ → ℚ} {pick : ℕ → ℕ → ℕ} {out : OutTable}
    (h : generate_random_dataset base ns z pick = some out) :
    List.Forall₂
      (fun bc oc => bc.1 = oc.1 ∧
        ∃ zc pc, genCol bc.2 (ns.getD base.nRows) zc pc = some oc.2)
      base.cols out.cols := by
  rw [generate_random_dataset] at h
  split at h
  · next => cases h
  · next cs hcs =>
    cases h
    exact genCols_sound hcs

theorem forall₂_mem_right {α β : Type} {R : α → β → Prop} :
    ∀ {l₁ : List α} {l₂ : List β}, List.Forall₂ R l₁ l₂ →
      ∀ b ∈ l₂, ∃ a ∈ l₁, R a b := by
  intro l₁ l₂ h
  induction h with
  | nil => intro b hb; cases hb
  | cons h₁ _ ih =>
    intro b hb
    rcases List.mem_cons.mp hb with rfl | hb
    · exact ⟨_, List.mem_cons_self _ _, h₁⟩
    · obtain ⟨a, ha, hr⟩ := ih b hb
      exact ⟨a, List.mem_cons.mpr (Or.inr ha), hr⟩

/-- C1 (amended): for every reference table and requested row count, whenever
the generator returns a table, every value generated for a numeric reference
column **with at least two rows** (so that `Series.std()` is defined; an
integer-dtype column holding, as pandas guarantees, only integral values) lies
within `[min, max]` of that reference column. -/
theorem c1_numeric_values_within_min_max
    (base : Table) (ns : Option ℕ) (z : ℕ → ℕ → ℚ) (pick : ℕ → ℕ → ℕ) (out : OutTable)
    (h : generate_random_dataset base ns z pick = some out) :
    List.Forall₂
      (fun bc oc => ∀ b xs, bc.2 = Col.num b xs → 2 ≤ xs.length →
        (b = true → ∀ x ∈ xs, x.den = 1) →
        ∃ lo hi ovs, qListMin xs = some lo ∧ qListMax xs = some hi ∧
          oc.2 = OutCol.num ovs ∧ ∀ v ∈ ovs, memRange lo hi v)
      base.cols out.cols := by
  refine (generate_random_dataset_sound h).imp ?_
  rintro bc oc ⟨-, zc, pc, hcol⟩ b xs hbc h2 hden
  rw [hbc] at hcol
  have hne : xs ≠ [] := by intro he; rw [he] at h2; simp at h2
  obtain ⟨lo, hlo⟩ := qListMin_exists hne
  obtain ⟨hi, hhi⟩ := qListMax_exists hne
  refine ⟨lo, hi, genNumCol b xs _ zc, hlo, hhi, genCol_num_eq hcol, ?_⟩
  intro v hv
  simp only [genNumCol, List.mem_map, List.mem_range] at hv
  obtain ⟨i, -, rfl⟩ := hv
  exact (genCell_spec b (zc i) h2 hlo hhi hden).1

/-- C1 witness: a two-row `Magnitud` column `[5, 7]` with a large noise draw
generates the clipped value 7, which lies within `[5, 7]`. -/
theorem c1_numeric_values_within_min_max_witness :
    List.Forall₂
      (fun (bc : String × Col) (oc : String × OutCol) =>
        ∀ b xs, bc.2 = Col.num b xs → 2 ≤ xs.length →
        (b = true → ∀ x ∈ xs, x.den = 1) →
        ∃ lo hi ovs, qListMin xs = some lo ∧ qListMax xs = some hi ∧
          oc.2 = OutCol.num ovs ∧ ∀ v ∈ ovs, memRange lo hi v)
      [("Magnitud", Col.num false [5, 7])]
      [("Magnitud", OutCol.num [PFloat.val 7])] :=
  c1_numeric_values_within_min_max ⟨[("Magnitud", Col.num false [5, 7])]⟩ (some 1)
    (fun _ _ => 100) (fun _ _ => 0) ⟨[("Magnitud", OutCol.num [PFloat.val 7])]⟩
    (by norm_num [generate_random_dataset, genCols, genCol, genNumCol, genCell, colMean,
      colVar, colMin, colMax, qListMin, qListMax, sampleNormal, clip, pmax, pmin,
      List.range_succ])

/-- C1 counterexample: as frozen, the claim also covers reference tables with
exactly one row; there `Series.std()` (ddof = 1) is NaN, the sample is NaN,
`np.clip` keeps NaN, and the generated value fails `min ≤ v ≤ max` (here
`min = max = 5`). -/
theorem c1_single_row_counterexample :
    generate_random_dataset ⟨[("Magnitud", Col.num false [5])]⟩ (some 1)
        (fun _ _ => 0) (fun _ _ => 0)
      = some ⟨[("Magnitud", OutCol.num [PFloat.nan])]⟩ ∧
    qListMin [(5 : ℚ)] = some 5 ∧ qListMax [(5 : ℚ)] = some 5 ∧
    ¬ memRange 5 5 PFloat.nan := by
  refine ⟨?_, by simp [qListMin], by simp [qListMax], by simp [memRange]⟩
  norm_num [generate_random_dataset, genCols, genCol, genNumCol, genCell, colMean,
    colVar, colMin, colMax, qListMin, qListMax, sampleNormal, clip, pmax, pmin,
    List.range_succ]

/-- C2: whenever the generator returns a table, every value generated for a
categorical reference column is one of that column's observed labels; in
particular a column whose only observed label is `l` generates `l` in every
row. -/
theorem c2_categorical_values_observed
    (base : Table) (ns : Option ℕ) (z : ℕ → ℕ → ℚ) (pick : ℕ → ℕ → ℕ) (out : OutTable)
    (h : generate_random_dataset base ns z pick = some out) :
    List.Forall₂
      (fun bc oc => ∀ xs, bc.2 = Col.cat xs →
        ∃ ovs, oc.2 = OutCol.cat ovs ∧ (∀ v ∈ ovs, v ∈ xs) ∧
          ∀ l, (∀ y ∈ xs, y = l) → ∀ v ∈ ovs, v = l)
      base.cols out.cols := by
  refine (generate_random_dataset_sound h).imp ?_
  rintro bc oc ⟨-, zc, pc, hcol⟩ xs hbc
  rw [hbc] at hcol
  obtain ⟨ovs, hoc, -, hmem⟩ := genCol_cat_spec hcol
  exact ⟨ovs, hoc, hmem, fun l hl v hv => hl v (hmem v hv)⟩

/-- C2 witness: a categorical column whose only observed label is `"a"`
generates `"a"` in both requested rows. -/
theorem c2_categorical_values_observed_witness :
    List.Forall₂
      (fun (bc : String × Col) (oc : String × OutCol) => ∀ xs, bc.2 = Col.cat xs →
        ∃ ovs, oc.2 = OutCol.cat ovs ∧ (∀ v ∈ ovs, v ∈ xs) ∧
          ∀ l, (∀ y ∈ xs, y = l) → ∀ v ∈ ovs, v = l)
      [("Alerta", Col.cat ["a"])]
      [("Alerta", OutCol.cat ["a", "a"])] :=
  c2_categorical_values_observed ⟨[("Alerta", Col.cat ["a"])]⟩ (some 2)
    (fun _ _ => 0) (fun _ _ => 5) ⟨[("Alerta", OutCol.cat ["a", "a"])]⟩
    (by norm_num [generate_random_dataset, genCols, genCol, genCatCol, List.range_succ])

/-- C3: whenever the generator returns a table, its column names equal the
reference's, in order, and every generated column has exactly `n_samples`
values when given, or `len(reference)` values when omitted. -/
theorem c3_shape_and_row_count
    (base : Table) (ns : Option ℕ) (z : ℕ → ℕ → ℚ) (pick : ℕ → ℕ → ℕ) (out : OutTable)
    (h : generate_random_dataset base ns z pick = some out) :
    out.cols.map Prod.fst = base.cols.map Prod.fst ∧
      ∀ oc ∈ out.cols, outColLen oc.2 = ns.getD base.nRows := by
  have hf := generate_random_dataset_sound h
  constructor
  · have hgen : ∀ {l₁ : List (String × Col)} {l₂ : List (String × OutCol)},
        List.Forall₂ (fun bc oc => bc.1 = oc.1 ∧
          ∃ zc pc, genCol bc.2 (ns.getD base.nRows) zc pc = some oc.2) l₁ l₂ →
        l₂.map Prod.fst = l₁.map Prod.fst := by
      intro l₁ l₂ hl
      induction hl with
      | nil => rfl
      | cons h₁ _ ih => simp [h₁.1, ih]
    exact hgen hf
  · intro oc hoc
    obtain ⟨bc, -, -, zc, pc, hcol⟩ := forall₂_mem_right hf oc hoc
    exact genCol_len hcol

/-- C3 witness: a mixed two-column reference with three rows, queried for two
samples, yields the same two labels in order and two values per column. -/
theorem c3_shape_and_row_count_witness :
    ([("Magnitud", OutCol.num [PFloat.val 7, PFloat.val 7]),
        ("Alerta", OutCol.cat ["a", "a"])].map Prod.fst
      = [("Magnitud", Col.num false [5, 7]),
          ("Alerta", Col.cat ["a"])].map Prod.fst) ∧
      ∀ oc ∈ [("Magnitud", OutCol.num [PFloat.val 7, PFloat.val 7]),
        ("Alerta", OutCol.cat ["a", "a"])], outColLen oc.2 = (some 2).getD
          (Table.nRows ⟨[("Magnitud", Col.num false [5, 7]), ("Alerta", Col.cat ["a"])]⟩) :=
  c3_shape_and_row_count
    ⟨[("Magnitud", Col.num false [5, 7]), ("Alerta", Col.cat ["a"])]⟩ (some 2)
    (fun _ _ => 100) (fun _ _ => 0)
    ⟨[("Magnitud", OutCol.num [PFloat.val 7, PFloat.val 7]),
      ("Alerta", OutCol.cat ["a", "a"])]⟩
    (by norm_num [generate_random_dataset, genCols, genCol, genNumCol, genCell, genCatCol,
      colMean, colVar, colMin, colMax, qListMin, qListMax, sampleNormal, clip, pmax, pmin,
      List.range_succ])

/-- C4: the code has no special case for zero or undefined standard deviation.
On a numeric column with the single value 5 (one row), `Series.std()` with
ddof = 1 is NaN, `np.random.normal` then returns NaN, `np.clip` keeps it, and
the generator emits NaN instead of the constant 5 — with `n_samples` omitted,
so the default row count (1) is exercised too. -/
theorem c4_single_unique_value_not_constant :
    generate_random_dataset ⟨[("Profundidad", Col.num false [5])]⟩ none
        (fun _ _ => 0) (fun _ _ => 0)
      = some ⟨[("Profundidad", OutCol.num [PFloat.nan])]⟩ ∧
    PFloat.nan ≠ PFloat.val 5 := by
  refine ⟨?_, by simp⟩
  norm_num [generate_random_dataset, genCols, genCol, genNumCol, genCell, colMean,
    colVar, colMin, colMax, qListMin, qListMax, sampleNormal, clip, pmax, pmin,
    Table.nRows, colLen, List.range_succ]

/-- C5: a zero-row reference is not rejected.  On a numeric column with zero
rows all statistics are NaN, and the generator returns a table of NaN values
(here one requested row) instead of failing with an InvalidInput condition. -/
theorem c5_zero_rows_returns_nan_table :
    generate_random_dataset ⟨[("Magnitud", Col.num false [])]⟩ (some 1)
        (fun _ _ => 0) (fun _ _ => 0)
      = some ⟨[("Magnitud", OutCol.num [PFloat.nan])]⟩ := by
  norm_num [generate_random_dataset, genCols, genCol, genNumCol, genCell, colMean,
    colVar, colMin, colMax, qListMin, qListMax, sampleNormal, clip, pmax, pmin,
    List.range_succ]

/-- C6 counterexample: the code rounds only when the reference column's
*dtype* is integer (`pd.api.types.is_integer_dtype`), not when its *values*
are all integers.  A float-dtype column with the integral values `[0, 1]` and
a noise draw of 1/2 generates the non-integer value 1/2, refuting the claim as
frozen (which quantifies over columns "whose values are all integers"). -/
theorem c6_float_dtype_counterexample :
    (∀ x ∈ [(0 : ℚ), 1], x.den = 1) ∧
    generate_random_dataset ⟨[("Magnitud", Col.num false [0, 1])]⟩ (some 1)
        (fun _ _ => 1 / 2) (fun _ _ => 0)
      = some ⟨[("Magnitud", OutCol.num [PFloat.val (1 / 2)])]⟩ ∧
    ((1 : ℚ) / 2).den ≠ 1 := by
  refine ⟨by norm_num, ?_, by norm_num⟩
  norm_num [generate_random_dataset, genCols, genCol, genNumCol, genCell, colMean,
    colVar, colMin, colMax, qListMin, qListMax, sampleNormal, clip, pmax, pmin,
    List.range_succ]

/-- C6 (amended): for every reference column of **integer dtype** (whose
values are then all integral) **with at least two rows**, every generated
value is an integer within `[min, max]` of the reference column. -/
theorem c6_integer_dtype_generates_integers
    (base : Table) (ns : Option ℕ) (z : ℕ → ℕ → ℚ) (pick : ℕ → ℕ → ℕ) (out : OutTable)
    (h : generate_random_dataset base ns z pick = some out) :
    List.Forall₂
      (fun bc oc => ∀ xs, bc.2 = Col.num true xs → 2 ≤ xs.length →
        (∀ x ∈ xs, x.den = 1) →
        ∃ lo hi ovs, qListMin xs = some lo ∧ qListMax xs = some hi ∧
          oc.2 = OutCol.num ovs ∧
          ∀ v ∈ ovs, ∃ k : ℤ, v = PFloat.val (k : ℚ) ∧ lo ≤ (k : ℚ) ∧ (k : ℚ) ≤ hi)
      base.cols out.cols := by
  refine (generate_random_dataset_sound h).imp ?_
  rintro bc oc ⟨-, zc, pc, hcol⟩ xs hbc h2 hden
  rw [hbc] at hcol
  have hne : xs ≠ [] := by intro he; rw [he] at h2; simp at h2
  obtain ⟨lo, hlo⟩ := qListMin_exists hne
  obtain ⟨hi, hhi⟩ := qListMax_exists hne
  refine ⟨lo, hi, genNumCol true xs _ zc, hlo, hhi, genCol_num_eq hcol, ?_⟩
  intro v hv
  simp only [genNumCol, List.mem_map, List.mem_range] at hv
  obtain ⟨i, -, rfl⟩ := hv
  obtain ⟨hrange, hint⟩ := genCell_spec true (zc i) h2 hlo hhi (fun _ => hden)
  obtain ⟨k, hk⟩ := hint rfl
  refine ⟨k, hk, ?_, ?_⟩
  · have := hrange
    rw [hk] at this
    exact this.1
  · have := hrange
    rw [hk] at this
    exact this.2

/-- C6 witness: an integer-dtype column `[0, 2]` with a noise draw of 1/2
generates `roundHalfEven (1/2) = 0`, an integer within `[0, 2]`. -/
theorem c6_integer_dtype_generates_integers_witness :
    List.Forall₂
      (fun (bc : String × Col) (oc : String × OutCol) =>
        ∀ xs, bc.2 = Col.num true xs → 2 ≤ xs.length →
        (∀ x ∈ xs, x.den = 1) →
        ∃ lo hi ovs, qListMin xs = some lo ∧ qListMax xs = some hi ∧
          oc.2 = OutCol.num ovs ∧
          ∀ v ∈ ovs, ∃ k : ℤ, v = PFloat.val (k : ℚ) ∧ lo ≤ (k : ℚ) ∧ (k : ℚ) ≤ hi)
      [("Profundidad", Col.num true [0, 2])]
      [("Profundidad", OutCol.num [PFloat.val 0])] :=
  c6_integer_dtype_generates_integers ⟨[("Profundidad", Col.num true [0, 2])]⟩ (some 1)
    (fun _ _ => 1 / 2) (fun _ _ => 0) ⟨[("Profundidad", OutCol.num [PFloat.val 0])]⟩
    (by norm_num [generate_random_dataset, genCols, genCol, genNumCol, genCell, intRound,
      roundHalfEven, colMean, colVar, colMin, colMax, qListMin, qListMax, sampleNormal,
      clip, pmax, pmin, List.range_succ, Int.floor_eq_iff])

theorem lookup_filter_ne {l : List (String × Col)} {c : String} (hne : c ≠ "Gravedad") :
    List.lookup c (l.filter (fun p => p.1 != "Gravedad")) = List.lookup c l := by
  induction l with
  | nil => rfl
  | cons hd tl ih =>
    obtain ⟨k, v⟩ := hd
    by_cases hk : k = "Gravedad"
    · subst hk
      have h1 : (("Gravedad", v).1 != "Gravedad") = false := by simp
      have h2 : (c == "Gravedad") = false := by simp [hne]
      simp [List.filter_cons, h1, List.lookup, h2, ih]
    · have h1 : ((k, v).1 != "Gravedad") = true := by simp [hk]
      cases hck : (c == k) <;>
        simp [List.filter_cons, h1, List.lookup, hck, ih]

theorem lookup_isSome_iff_mem_names {l : List (String × Col)} {c : String} :
    (List.lookup c l).isSome = true ↔ c ∈ l.map Prod.fst := by
  induction l with
  | nil => simp [List.lookup]
  | cons hd tl ih =>
    obtain ⟨k, v⟩ := hd
    cases hck : (c == k) with
    | false =>
      have : c ≠ k := by simpa using hck
      simp [List.lookup, hck, ih, this]
    | true =>
      have : c = k := by simpa using hck
      simp [List.lookup, hck, this]

theorem colNamed_clean (df : Table) {c : String} (hne : c ≠ "Gravedad") :
    (clean_dataset df).colNamed c = df.colNamed c := by
  rw [clean_dataset]
  by_cases hc : df.names.contains "Gravedad"
  · rw [if_pos hc]
    exact lookup_filter_ne hne
  · rw [if_neg hc]

theorem validate_columns_true_iff {t : Table} :
    (validate_columns t).1 = true ↔
      ∀ c ∈ EXPECTED_COLUMNS, (t.colNamed c).isSome := by
  simp only [validate_columns, List.isEmpty_iff, List.filter_eq_nil_iff]
  constructor
  · intro h c hc
    have := h c hc
    rw [Table.colNamed, lookup_isSome_iff_mem_names]
    simpa [Table.names, List.elem_iff] using this
  · intro h c hc
    have := h c hc
    rw [Table.colNamed, lookup_isSome_iff_mem_names] at this
    simpa [Table.names, List.elem_iff] using this

theorem validate_data_types_true_iff {t : Table} :
    (validate_data_types t).1 = true ↔
      ∀ c ∈ EXPECTED_COLUMNS, ∀ col, t.colNamed c = some col → isNumericCol col = true := by
  simp only [validate_data_types, List.isEmpty_iff, List.filterMap_eq_nil_iff]
  constructor
  · intro h c hc col hcol
    have := h c hc
    rw [hcol] at this
    by_cases hn : isNumericCol col
    · exact hn
    · simp [hn] at this
  · intro h c hc
    cases hcol : t.colNamed c with
    | none => simp
    | some col => simp [h c hc col hcol]

theorem rangeCheck_isSome {t : Table} {c : String} (bad : List ℚ → Bool) (msg : String)
    (h : ∀ col, t.colNamed c = some col → isNumericCol col = true) :
    ∃ es, rangeCheck t c bad msg = some es := by
  cases hcol : t.colNamed c with
  | none => exact ⟨[], by rw [rangeCheck, hcol]⟩
  | some col =>
    cases col with
    | num b xs => exact ⟨_, by rw [rangeCheck, hcol]⟩
    | cat xs => exact absurd (h _ hcol) (by simp [isNumericCol])

theorem validate_data_ranges_isSome {t : Table}
    (h : ∀ c ∈ EXPECTED_COLUMNS, ∀ col, t.colNamed c = some col → isNumericCol col = true) :
    ∃ p, validate_data_ranges t = some p := by
  obtain ⟨e1, h1⟩ := rangeCheck_isSome magnitudBad
    "Magnitude deve estar entre 0 e 10" (h "Magnitud" (by simp [EXPECTED_COLUMNS]))
  obtain ⟨e2, h2⟩ := rangeCheck_isSome latitudBad
    "Latitude deve estar entre -90 e 90" (h "Latitud" (by simp [EXPECTED_COLUMNS]))
  obtain ⟨e3, h3⟩ := rangeCheck_isSome longitudBad
    "Longitude deve estar entre -180 e 180" (h "Longitud" (by simp [EXPECTED_COLUMNS]))
  obtain ⟨e4, h4⟩ := rangeCheck_isSome profundidadBad
    "Profundidade nao pode ser negativa" (h "Profundidad" (by simp [EXPECTED_COLUMNS]))
  have : validate_data_ranges t
      = some ((e1 ++ e2 ++ e3 ++ e4).isEmpty, e1 ++ e2 ++ e3 ++ e4) := by
    simp [validate_data_ranges, h1, h2, h3, h4]
  exact ⟨_, this⟩

/-- C7: the upload handler rejects a parsed table exactly when an expected
column (Magnitud, Latitud, Longitud, Profundidad) is absent or a present
expected column is non-numeric; when all expected columns are present and
numeric the (cleaned) table is returned — range violations only produce
warnings and never cause rejection. -/
theorem c7_upload_rejects_iff_missing_or_nonnumeric (df : Table) :
    (handle_file_upload df = none ↔
      ∃ c ∈ EXPECTED_COLUMNS, df.colNamed c = none ∨
        ∃ col, df.colNamed c = some col ∧ isNumericCol col = false) ∧
    ((∀ c ∈ EXPECTED_COLUMNS, ∃ col, df.colNamed c = some col ∧ isNumericCol col = true) →
      handle_file_upload df = some (clean_dataset df)) := by
  have hexp : ∀ c ∈ EXPECTED_COLUMNS, c ≠ "Gravedad" := by decide
  have hbr : ∀ c ∈ EXPECTED_COLUMNS, (clean_dataset df).colNamed c = df.colNamed c :=
    fun c hc => colNamed_clean df (hexp c hc)
  by_cases h1 : (validate_columns (clean_dataset df)).1 = true
  · by_cases h2 : (validate_data_types (clean_dataset df)).1 = true
    · -- accepted: all expected columns present and numeric
      have hnum := validate_data_types_true_iff.mp h2
      have hsome := validate_columns_true_iff.mp h1
      obtain ⟨p, hp⟩ := validate_data_ranges_isSome hnum
      have hupload : handle_file_upload df = some (clean_dataset df) := by
        rw [handle_file_upload, if_neg (by simp [h1]), if_neg (by simp [h2]), hp]
      refine ⟨?_, fun _ => hupload⟩
      rw [hupload]
      simp only [reduceCtorEq, false_iff]
      rintro ⟨c, hc, hcase | ⟨col, hcol, hnn⟩⟩
      · have := hsome c hc
        rw [hbr c hc, hcase] at this
        cases this
      · have := hnum c hc col (by rw [hbr c hc]; exact hcol)
        rw [this] at hnn
        cases hnn
    · -- rejected by the dtype check
      have h2' : (validate_data_types (clean_dataset df)).1 = false := by
        revert h2; cases (validate_data_types (clean_dataset df)).1 <;> simp
      have hni : ∃ c ∈ EXPECTED_COLUMNS, ∃ col,
          (clean_dataset df).colNamed c = some col ∧ isNumericCol col = false := by
        by_contra hcon
        apply h2
        rw [validate_data_types_true_iff]
        intro c hc col hcol
        by_cases hn : isNumericCol col = true
        · exact hn
        · exact absurd ⟨c, hc, col, hcol, by simpa using hn⟩ hcon
      have hupload : handle_file_upload df = none := by
        rw [handle_file_upload, if_neg (by simp [h1]), if_pos h2']
      obtain ⟨c, hc, col, hcol, hnn⟩ := hni
      refine ⟨?_, ?_⟩
      · rw [hupload]
        simp only [true_iff]
        exact ⟨c, hc, Or.inr ⟨col, by rw [← hbr c hc]; exact hcol, hnn⟩⟩
      · intro hall
        obtain ⟨col', hcol', hn'⟩ := hall c hc
        rw [← hbr c hc, hcol] at hcol'
        cases hcol'
        rw [hn'] at hnn
        cases hnn
  · -- rejected by the missing-columns check
    have h1' : (validate_columns (clean_dataset df)).1 = false := by
      revert h1; cases (validate_columns (clean_dataset df)).1 <;> simp
    have hmiss : ∃ c ∈ EXPECTED_COLUMNS, (clean_dataset df).colNamed c = none := by
      by_contra hcon
      apply h1
      rw [validate_columns_true_iff]
      intro c hc
      cases hcol : (clean_dataset df).colNamed c with
      | none => exact absurd ⟨c, hc, hcol⟩ hcon
      | some col => simp
    have hupload : handle_file_upload df = none := by
      rw [handle_file_upload, if_pos h1']
    obtain ⟨c, hc, hcol⟩ := hmiss
    refine ⟨?_, ?_⟩
    · rw [hupload]
      simp only [true_iff]
      exact ⟨c, hc, Or.inl (by rw [← hbr c hc]; exact hcol)⟩
    · intro hall
      obtain ⟨col', hcol', -⟩ := hall c hc
      rw [← hbr c hc, hcol] at hcol'
      cases hcol'

/-- C7 witness: a table with all four expected columns numeric but `Magnitud`
out of range (11 > 10) and a `Gravedad` column is accepted: the handler
returns the cleaned table; the range violation only warns. -/
theorem c7_upload_rejects_iff_missing_or_nonnumeric_witness :
    handle_file_upload ⟨[("Magnitud", Col.num false [11]), ("Latitud", Col.num false [0]),
        ("Longitud", Col.num false [0]), ("Profundidad", Col.num false [3]),
        ("Gravedad", Col.cat ["Alta"])]⟩
      = some (clean_dataset ⟨[("Magnitud", Col.num false [11]), ("Latitud", Col.num false [0]),
        ("Longitud", Col.num false [0]), ("Profundidad", Col.num false [3]),
        ("Gravedad", Col.cat ["Alta"])]⟩) :=
  (c7_upload_rejects_iff_missing_or_nonnumeric _).2 (by
    intro c hc
    fin_cases hc
    · exact ⟨Col.num false [11], by simp [Table.colNamed, List.lookup], rfl⟩
    · exact ⟨Col.num false [0], by simp [Table.colNamed, List.lookup], rfl⟩
    · exact ⟨Col.num false [0], by simp [Table.colNamed, List.lookup], rfl⟩
    · exact ⟨Col.num false [3], by simp [Table.colNamed, List.lookup], rfl⟩)

/-- C8: `clean_dataset` keeps every column except those labelled `Gravedad`,
in order and with untouched values (the filtered column list), and returns a
frame without a `Gravedad` column entirely unchanged. -/
theorem c8_clean_dataset_drops_only_gravedad (t : Table) :
    (clean_dataset t).cols = t.cols.filter (fun c => c.1 != "Gravedad") ∧
      (t.names.contains "Gravedad" = false → clean_dataset t = t) := by
  constructor
  · rw [clean_dataset]
    by_cases hc : t.names.contains "Gravedad"
    · rw [if_pos hc]
    · rw [if_neg hc]
      have hall : ∀ c ∈ t.cols, (c.1 != "Gravedad") = true := by
        intro c hcm
        simp only [bne_iff_ne, ne_eq]
        intro he
        apply hc
        rw [List.elem_iff]
        rw [← he]
        exact List.mem_map_of_mem Prod.fst hcm
      exact (List.filter_eq_self.mpr hall).symm
  · intro hnc
    rw [clean_dataset, if_neg (by rw [hnc]; simp)]

/-- C8 witness: a frame without a `Gravedad` column is returned unchanged. -/
theorem c8_clean_dataset_drops_only_gravedad_witness :
    clean_dataset ⟨[("Magnitud", Col.num false [5]), ("Alerta", Col.cat ["a"])]⟩
      = ⟨[("Magnitud", Col.num false [5]), ("Alerta", Col.cat ["a"])]⟩ :=
  (c8_clean_dataset_drops_only_gravedad _).2 (by simp [Table.names])

/-- C9: an `LLMService` constructed without an API credential reports
unavailability, and each of the three analysis operations returns `None` on
every input table and for every possible remote-call outcome (the functions
are total, so nothing is raised). -/
theorem c9_missing_credential_disables_ai (b : Bool) (df : Table)
    (a1 a2 a3 : Option String) :
    (llmServiceInit none b).is_available = false ∧
    generate_prediction_insights (llmServiceInit none b) df a1 = none ∧
    generate_risk_assessment (llmServiceInit none b) df a2 = none ∧
    analyze_data_quality (llmServiceInit none b) df a3 = none := by
  refine ⟨rfl, ?_, ?_, ?_⟩ <;>
    simp [generate_prediction_insights, generate_risk_assessment, analyze_data_quality,
      llmServiceInit, LLMService.is_available]

/-- C10: `validate_file_size` accepts exactly the sizes up to
`max_size_mb * 1024 * 1024` bytes, returning `(True, "")`, and rejects larger
sizes with a non-empty error message. -/
theorem c10_validate_file_size_cap (file_size max_size_mb : ℕ) :
    (validate_file_size file_size max_size_mb = (true, "") ↔
      file_size ≤ max_size_mb * 1024 * 1024) ∧
    (max_size_mb * 1024 * 1024 < file_size →
      (validate_file_size file_size max_size_mb).1 = false ∧
        (validate_file_size file_size max_size_mb).2 ≠ "") := by
  constructor
  · constructor
    · intro h
      by_contra hgt
      push_neg at hgt
      rw [validate_file_size, if_pos (by omega)] at h
      simp at h
    · intro h
      rw [validate_file_size, if_neg (by omega)]
  · intro h
    rw [validate_file_size, if_pos (by omega)]
    refine ⟨rfl, ?_⟩
    intro he
    have h2 := congrArg String.length he
    simp [String.length_append] at h2
    exact absurd h2.2 (by decide)

/-- C10 witness: with the Python default limit of 100 MB, a 5-byte file is
accepted and a file one byte over the cap is rejected with a message. -/
theorem c10_validate_file_size_cap_witness :
    validate_file_size 5 100 = (true, "") ∧
      (validate_file_size 104857601 100).1 = false ∧
      (validate_file_size 104857601 100).2 ≠ "" :=
  ⟨(c10_validate_file_size_cap 5 100).1.mpr (by norm_num),
    (c10_validate_file_size_cap 104857601 100).2 (by norm_num)⟩

/-- C9 witness: a concrete credential-less service on the empty table. -/
theorem c9_missing_credential_disables_ai_witness :
    (llmServiceInit none true).is_available = false ∧
    generate_prediction_insights (llmServiceInit none true) ⟨[]⟩ (some "x") = none ∧
    generate_risk_assessment (llmServiceInit none true) ⟨[]⟩ (some "x") = none ∧
    analyze_data_quality (llmServiceInit none true) ⟨[]⟩ (some "x") = none :=
  c9_missing_credential_disables_ai true ⟨[]⟩ (some "x") (some "x") (some "x")

/-- Context for the C4 analysis: with at least two replicated rows the exact
sample variance is 0, `np.random.normal` returns the mean exactly, and
clipping to `[k, k]` pins the cell to `k` for every noise draw — the constant
behaviour the code does deliver away from the one-row case. -/
theorem constant_two_row_column_generates_constant (z : ℚ) :
    genCell false [5, 5] z = PFloat.val 5 := by
  norm_num [genCell, colMean, colVar, colMin, colMax, qListMin, qListMax, sampleNormal,
    clip, pmax, pmin]
